import Mathlib

/-!
Verification development for the ts-expose-status-plugin repository.

The host side (src/index.ts) is embedded as pure functions over explicit data:
a `ProjectChecker` wraps one language-service capability, and a
`MultiProjectChecker` aggregates an ordered list of them.  The client side
(src/TSStatusClient.ts) is embedded as a state machine over an explicit
`ClientState`, with a ghost trace of emitted request frames so that claims
about what is (not) transmitted are expressible.

External collaborators (the TypeScript engine, Node path resolution, the IPC
channel) enter as explicit function parameters or capability fields: the code
under verification never inspects their internals, only calls them.
-/

/-- The separator string passed to flattenDiagnosticMessageText
(src/index.ts line 39). -/
def newlineSeparator : String := "\n"

/-- The message of the failure thrown by TSStatusClient.call when a prior
call is still in flight (src/TSStatusClient.ts line 94). -/
def concurrentCallMessage : String :=
  "Expected responseCallback to be unset. May only make one concurrent call."

/-- The message of the failure thrown by the RESPOND_EVENT handler when no
callback is pending (src/TSStatusClient.ts line 25). -/
def missingCallbackMessage : String := "Expected response callback to be set"

/-- The prefix of the failure raised for a string response payload
(src/TSStatusClient.ts line 101). -/
def serviceErrorHead : String := "Error from TS language service: "

/-- The part of the synthesized not-found message before the filename
(src/index.ts line 104). -/
def fileNotFoundHead : String := "File "

/-- The part of the synthesized not-found message after the filename
(src/index.ts lines 104-105). -/
def fileNotFoundTail : String :=
  " was not found in any TypeScript project. Make sure the appropriate TypeScript project(s) are open in your editor."

/-- The normalized issue record sent over the wire (src/Protocol.ts).
The field `end` of the source is written `end_` because `end` is a Lean
keyword. -/
structure SimpleDiagnostic where
  filePath : Option String
  start : Option Nat
  end_ : Option Nat
  message : String
  code : Nat
  deriving Repr, DecidableEq

/-- The message text of a raw engine diagnostic: either a plain string or a
chain of nested sub-messages (ts.DiagnosticMessageChain). -/
inductive DiagnosticMessageText where
  | text (s : String)
  | chain (messageText : String) (next : List DiagnosticMessageText)

/-- A raw engine diagnostic, as consumed by convertToSimpleDiagnostic
(ts.Diagnostic).  Only the fields the plugin reads are modelled; the attached
source file is represented by its fileName, the only field the code uses. -/
structure Diagnostic where
  file : Option String
  start : Option Nat
  length : Option Nat
  messageText : DiagnosticMessageText
  code : Nat

/-- A raw engine diagnostic is well-formed when its location information
follows the engine contract: the start position and the length are provided
together, and positions are only attached to diagnostics that carry a file. -/
def Diagnostic.WellFormed (d : Diagnostic) : Prop :=
  d.start.isSome = d.length.isSome ∧ (d.file = none → d.start = none)

instance (d : Diagnostic) : Decidable d.WellFormed := by
  unfold Diagnostic.WellFormed; infer_instance

/-- The slice of a ts.Program the plugin consults: the two diagnostic
categories it reads and the membership lookup.  `getSourceFile` is `true`
exactly when the engine would return a source file object, so that
`Boolean(program.getSourceFile(f))` in the source is `getSourceFile f`
here. -/
structure Program where
  getSemanticDiagnostics : List Diagnostic
  getSyntacticDiagnostics : List Diagnostic
  getSourceFile : String → Bool

/-- The slice of a ts.LanguageService the plugin consults.  `getProgram` is
`none` when the underlying analysis state is unavailable. -/
structure LanguageService where
  getProgram : Option Program
  getSemanticDiagnostics : String → List Diagnostic
  getSyntacticDiagnostics : String → List Diagnostic

/-- The slice of ts.server.PluginCreateInfo the plugin consults. -/
structure PluginCreateInfo where
  languageService : LanguageService

/-- The slice of the typescript module object the plugin consults:
flattenDiagnosticMessageText, taking the message text and the separator. -/
structure TSModule where
  flattenDiagnosticMessageText : DiagnosticMessageText → String → String

/-- Typechecking helper for a single project (src/index.ts, class
ProjectChecker): the ts module reference and the plugin-create info. -/
structure ProjectChecker where
  ts : TSModule
  info : PluginCreateInfo

/-- ProjectChecker.convertToSimpleDiagnostic (src/index.ts lines 33-42).
`resolve` is the path-resolution capability imported from the path module. -/
def ProjectChecker.convertToSimpleDiagnostic (resolve : String → String)
    (c : ProjectChecker) (diagnostic : Diagnostic) : SimpleDiagnostic :=
  { filePath :=
      match diagnostic.file with
      | some f => some (resolve f)
      | none => none,
    start :=
      match diagnostic.start with
      | some s => some s
      | none => none,
    end_ :=
      match diagnostic.start, diagnostic.length with
      | some s, some l => some (s + l)
      | _, _ => none,
    message := c.ts.flattenDiagnosticMessageText diagnostic.messageText newlineSeparator,
    code := diagnostic.code }

/-- ProjectChecker.getAllErrors (src/index.ts lines 44-52): if the program is
unavailable, return the empty list; otherwise the semantic then syntactic
diagnostics of the program, converted. -/
def ProjectChecker.getAllErrors (resolve : String → String)
    (c : ProjectChecker) : List SimpleDiagnostic :=
  match c.info.languageService.getProgram with
  | none => []
  | some program =>
    let tsDiagnostics := program.getSemanticDiagnostics ++ program.getSyntacticDiagnostics
    tsDiagnostics.map (fun diagnostic => ProjectChecker.convertToSimpleDiagnostic resolve c diagnostic)

/-- ProjectChecker.getErrorsForFile (src/index.ts lines 54-60): semantic then
syntactic diagnostics for the file, converted. -/
def ProjectChecker.getErrorsForFile (resolve : String → String)
    (c : ProjectChecker) (filename : String) : List SimpleDiagnostic :=
  (c.info.languageService.getSemanticDiagnostics filename ++
      c.info.languageService.getSyntacticDiagnostics filename).map
    (fun diagnostic => ProjectChecker.convertToSimpleDiagnostic resolve c diagnostic)

/-- ProjectChecker.fileInProject (src/index.ts lines 62-64):
`Boolean(getProgram()?.getSourceFile(filename))`; the optional chain yields
`false` when the program is unavailable. -/
def ProjectChecker.fileInProject (c : ProjectChecker) (filename : String) : Bool :=
  match c.info.languageService.getProgram with
  | none => false
  | some program => program.getSourceFile filename

/-- Typechecking helper combining all open projects (src/index.ts, class
MultiProjectChecker): the ordered list of registered project checkers. -/
structure MultiProjectChecker where
  projectCheckers : List ProjectChecker

/-- MultiProjectChecker.registerProject (src/index.ts lines 73-76): push a new
ProjectChecker onto the end of the list. -/
def MultiProjectChecker.registerProject (m : MultiProjectChecker)
    (ts : TSModule) (info : PluginCreateInfo) : MultiProjectChecker :=
  { projectCheckers := m.projectCheckers ++ [ProjectChecker.mk ts info] }

/-- MultiProjectChecker.getAllErrors (src/index.ts lines 78-80). -/
def MultiProjectChecker.getAllErrors (resolve : String → String)
    (m : MultiProjectChecker) : List SimpleDiagnostic :=
  m.projectCheckers.flatMap (fun checker => ProjectChecker.getAllErrors resolve checker)

/-- The diagnostic synthesized for a file that no project claims
(src/index.ts lines 99-107). -/
def fileNotFoundDiagnostic (filename : String) : SimpleDiagnostic :=
  { filePath := some filename,
    start := none,
    end_ := none,
    message := fileNotFoundHead ++ filename ++ fileNotFoundTail,
    code := 20000 }

/-- The body of the inner loop of MultiProjectChecker.getErrorsForFiles
(src/index.ts lines 92-97): the accumulator carries the diagnostics pushed so
far and the matchedAnyProject flag. -/
def getErrorsForFilesStep (resolve : String → String) (filename : String)
    (st : List SimpleDiagnostic × Bool) (projectChecker : ProjectChecker) :
    List SimpleDiagnostic × Bool :=
  if projectChecker.fileInProject filename then
    (st.1 ++ ProjectChecker.getErrorsForFile resolve projectChecker filename, true)
  else
    st

/-- MultiProjectChecker.getErrorsForFiles (src/index.ts lines 82-111): for
each filename in order, scan every registered checker, appending the results
of each checker that claims the file; if none claims it, append the
synthesized code-20000 diagnostic. -/
def MultiProjectChecker.getErrorsForFiles (resolve : String → String)
    (m : MultiProjectChecker) (filenames : List String) : List SimpleDiagnostic :=
  filenames.foldl
    (fun diagnostics filename =>
      let scanned := m.projectCheckers.foldl (getErrorsForFilesStep resolve filename)
        (diagnostics, false)
      if scanned.2 then
        scanned.1
      else
        scanned.1 ++ [fileNotFoundDiagnostic filename])
    []

/-- The diagnostics contributed for one filename by the checkers that claim
it, in registration order (src/index.ts lines 92-97, restated as a list
comprehension for reasoning). -/
def claimedErrors (resolve : String → String) (checkers : List ProjectChecker)
    (filename : String) : List SimpleDiagnostic :=
  checkers.flatMap (fun c =>
    if c.fileInProject filename then ProjectChecker.getErrorsForFile resolve c filename else [])

/-- The complete contribution of one filename to getErrorsForFiles: the
claimed errors, followed by the synthesized diagnostic when no checker claims
the file. -/
def fileErrors (resolve : String → String) (checkers : List ProjectChecker)
    (filename : String) : List SimpleDiagnostic :=
  claimedErrors resolve checkers filename ++
    (if checkers.any (fun c => c.fileInProject filename) then [] else [fileNotFoundDiagnostic filename])

/-- A request frame sent over the channel (spec section 6; the payloads built
by TSStatusClient.getAllErrors and TSStatusClient.getErrorsForFiles). -/
inductive Request where
  | getAllErrors
  | getErrorsForFiles (filenames : List String)
  deriving Repr, DecidableEq

/-- A response payload delivered on the RESPOND_EVENT: either a diagnostic
sequence or a string failure reason, distinguished structurally just as
`typeof response` distinguishes them in the source. -/
inductive Response where
  | diagnostics (ds : List SimpleDiagnostic)
  | str (s : String)
  deriving Repr, DecidableEq

/-- The observable state of a TSStatusClient (src/TSStatusClient.ts).
`responseCallback` records whether the single pending-response slot is
occupied (in the source it holds the promise resolver of the in-flight call,
or null).  `sentFrames` is a ghost trace of every request frame emitted on
the connection, kept so that claims about what is never transmitted are
expressible. -/
structure ClientState where
  responseCallback : Bool
  sentFrames : List Request
  deriving Repr, DecidableEq

/-- The synchronous prefix of TSStatusClient.call (src/TSStatusClient.ts
lines 92-98): if the pending-response slot is occupied, throw without
touching the connection; otherwise occupy the slot and emit the request
frame. -/
def TSStatusClient.beginCall (st : ClientState) (payload : Request) :
    Except String ClientState :=
  if st.responseCallback then
    Except.error concurrentCallMessage
  else
    Except.ok { responseCallback := true, sentFrames := st.sentFrames ++ [payload] }

/-- The RESPOND_EVENT handler installed by the constructor
(src/TSStatusClient.ts lines 23-30): if no callback is pending, throw;
otherwise clear the pending-response slot first and only then invoke the
saved continuation `k`, which therefore observes the already-cleared
state. -/
def TSStatusClient.respondHandler {α : Type} (st : ClientState)
    (k : ClientState → Response → α) (data : Response) : Except String α :=
  if st.responseCallback then
    Except.ok (k { st with responseCallback := false } data)
  else
    Except.error missingCallbackMessage

/-- Interpretation of the awaited response payload (src/TSStatusClient.ts
lines 100-103): a string payload is converted into a thrown failure carrying
the string; any other payload is returned unchanged. -/
def TSStatusClient.interpretResponse (response : Response) :
    Except String (List SimpleDiagnostic) :=
  match response with
  | Response.str s => Except.error (serviceErrorHead ++ s)
  | Response.diagnostics ds => Except.ok ds

/-- One complete round trip of TSStatusClient.call (src/TSStatusClient.ts
lines 92-104) given the response payload the host will deliver: the guard of
`beginCall`, then the suspension until `respondHandler` clears the slot and
resumes the await with the payload, then the `interpretResponse` check.  On
the synchronous throw the state is returned untouched: no frame was emitted
and nothing was queued. -/
def TSStatusClient.call (st : ClientState) (payload : Request)
    (response : Response) : Except String (List SimpleDiagnostic) × ClientState :=
  if st.responseCallback then
    (Except.error concurrentCallMessage, st)
  else
    (TSStatusClient.interpretResponse response,
      { responseCallback := false, sentFrames := st.sentFrames ++ [payload] })

/-- Observable events of one TSStatusClient.withClient run, listed in
execution order. -/
inductive WithClientEvent where
  | onErrorRun
  | onSuccessRun
  | disconnectRun
  deriving Repr, DecidableEq

/-- TSStatusClient.withClient (src/TSStatusClient.ts lines 33-53).  The
outcome of the connection attempt is a parameter, since connecting is an
interaction with the external channel; `onSuccess` and `onError` may each
succeed or fail.  Alongside the propagated outcome the definition returns
the trace of events in execution order: on connection failure only `onError`
runs; on connection success `onSuccess` runs and then the finally clause
disconnects, before the outcome of `onSuccess` — success or failure — is
propagated. -/
def TSStatusClient.withClient {T : Type} (connectResult : Except String ClientState)
    (onSuccess : ClientState → Except String T) (onError : String → Except String T) :
    Except String T × List WithClientEvent :=
  match connectResult with
  | Except.error e => (onError e, [WithClientEvent.onErrorRun])
  | Except.ok client =>
    (onSuccess client, [WithClientEvent.onSuccessRun, WithClientEvent.disconnectRun])

/-! Concrete sample instances, used to exhibit witnesses for the theorems
with hypotheses. -/

/-- A sample path. -/
def pathA : String := "/a.ts"

/-- A sample ts module whose flatten capability returns the head message. -/
def tsSample : TSModule :=
  { flattenDiagnosticMessageText := fun t _sep =>
      match t with
      | DiagnosticMessageText.text s => s
      | DiagnosticMessageText.chain s _ => s }

/-- A sample raw diagnostic with file and full location information. -/
def diagSampleA : Diagnostic :=
  { file := some pathA, start := some 1, length := some 2,
    messageText := DiagnosticMessageText.text ("boom"), code := 100 }

/-- A second sample raw diagnostic with file and full location information. -/
def diagSampleB : Diagnostic :=
  { file := some pathA, start := some 4, length := some 1,
    messageText := DiagnosticMessageText.text ("crash"), code := 200 }

/-- A sample raw diagnostic with no associated file and no location. -/
def diagNoFile : Diagnostic :=
  { file := none, start := none, length := none,
    messageText := DiagnosticMessageText.text ("global"), code := 5 }

/-- A sample program containing `pathA` and reporting `diagSampleA`. -/
def programA : Program :=
  { getSemanticDiagnostics := [diagSampleA],
    getSyntacticDiagnostics := [],
    getSourceFile := fun f => f == pathA }

/-- A sample program containing `pathA` and reporting `diagSampleB`. -/
def programB : Program :=
  { getSemanticDiagnostics := [diagSampleB],
    getSyntacticDiagnostics := [],
    getSourceFile := fun f => f == pathA }

/-- A sample language service backed by `programA`. -/
def serviceA : LanguageService :=
  { getProgram := some programA,
    getSemanticDiagnostics := fun f => if f == pathA then [diagSampleA] else [],
    getSyntacticDiagnostics := fun _ => [] }

/-- A sample language service backed by `programB`. -/
def serviceB : LanguageService :=
  { getProgram := some programB,
    getSemanticDiagnostics := fun f => if f == pathA then [diagSampleB] else [],
    getSyntacticDiagnostics := fun _ => [] }

/-- A sample language service whose analysis state is unavailable. -/
def serviceNotReady : LanguageService :=
  { getProgram := none,
    getSemanticDiagnostics := fun _ => [],
    getSyntacticDiagnostics := fun _ => [] }

/-- A sample checker over `serviceA`. -/
def checkerA : ProjectChecker := { ts := tsSample, info := { languageService := serviceA } }

/-- A sample checker over `serviceB`. -/
def checkerB : ProjectChecker := { ts := tsSample, info := { languageService := serviceB } }

/-- A sample checker over an unavailable analysis state. -/
def checkerNotReady : ProjectChecker :=
  { ts := tsSample, info := { languageService := serviceNotReady } }

/-- A sample registry holding `checkerA` then `checkerB`: both claim
`pathA`. -/
def registryAB : MultiProjectChecker := { projectCheckers := [checkerA, checkerB] }

/-- A sample registry holding only a checker that claims nothing. -/
def registryNotReady : MultiProjectChecker := { projectCheckers := [checkerNotReady] }

/-- A sample string failure payload, as the host would send for an unknown
method. -/
def sampleError : String := "Unexpected method: nope"

/-! Helper lemmas about the aggregation fold of
MultiProjectChecker.getErrorsForFiles. -/

/-- The inner loop over the registered checkers accumulates exactly the
claimed errors and the matchedAnyProject flag. -/
theorem foldl_step_characterization (resolve : String → String) (filename : String) :
    ∀ (checkers : List ProjectChecker) (d : List SimpleDiagnostic) (b : Bool),
      checkers.foldl (getErrorsForFilesStep resolve filename) (d, b) =
        (d ++ claimedErrors resolve checkers filename,
          b || checkers.any (fun c => c.fileInProject filename)) := by
  intro checkers
  induction checkers with
  | nil => intro d b; simp [claimedErrors]
  | cons c cs ih =>
    intro d b
    cases h : c.fileInProject filename with
    | false =>
      simp [List.foldl_cons, getErrorsForFilesStep, h, ih, claimedErrors]
    | true =>
      simp [List.foldl_cons, getErrorsForFilesStep, h, ih, claimedErrors, List.append_assoc]

/-- One iteration of the outer loop appends exactly `fileErrors` for the
filename under scan. -/
theorem scan_characterization (resolve : String → String) (checkers : List ProjectChecker)
    (d : List SimpleDiagnostic) (filename : String) :
    (if (checkers.foldl (getErrorsForFilesStep resolve filename) (d, false)).2 then
      (checkers.foldl (getErrorsForFilesStep resolve filename) (d, false)).1
    else
      (checkers.foldl (getErrorsForFilesStep resolve filename) (d, false)).1 ++
        [fileNotFoundDiagnostic filename]) =
      d ++ fileErrors resolve checkers filename := by
  rw [foldl_step_characterization]
  cases h : checkers.any (fun c => c.fileInProject filename) with
  | false => simp [fileErrors, h, List.append_assoc]
  | true => simp [fileErrors, h]

/-- The outer loop of getErrorsForFiles is the concatenation of the per-file
contributions, for any initial accumulator. -/
theorem getErrorsForFiles_foldl_characterization (resolve : String → String)
    (m : MultiProjectChecker) :
    ∀ (filenames : List String) (d : List SimpleDiagnostic),
      filenames.foldl
        (fun diagnostics filename =>
          let scanned := m.projectCheckers.foldl (getErrorsForFilesStep resolve filename)
            (diagnostics, false)
          if scanned.2 then
            scanned.1
          else
            scanned.1 ++ [fileNotFoundDiagnostic filename]) d =
      d ++ filenames.flatMap (fileErrors resolve m.projectCheckers) := by
  intro filenames
  induction filenames with
  | nil => intro d; simp
  | cons f fs ih =>
    intro d
    rw [List.foldl_cons]
    simp only []
    rw [scan_characterization, ih, List.flatMap_cons, List.append_assoc]

/-- MultiProjectChecker.getErrorsForFiles is the concatenation, over the
requested filenames in order, of the per-file contributions. -/
theorem getErrorsForFiles_flatMap (resolve : String → String) (m : MultiProjectChecker)
    (filenames : List String) :
    MultiProjectChecker.getErrorsForFiles resolve m filenames =
      filenames.flatMap (fileErrors resolve m.projectCheckers) := by
  have h := getErrorsForFiles_foldl_characterization resolve m filenames []
  simpa [MultiProjectChecker.getErrorsForFiles] using h

/-- Specialization to a single requested filename. -/
theorem getErrorsForFiles_singleton (resolve : String → String) (m : MultiProjectChecker)
    (filename : String) :
    MultiProjectChecker.getErrorsForFiles resolve m [filename] =
      fileErrors resolve m.projectCheckers filename := by
  simp [getErrorsForFiles_flatMap]

/-- The claimed errors are the per-file results of exactly the claiming
checkers, in registration order. -/
theorem claimedErrors_eq_filter (resolve : String → String) (filename : String) :
    ∀ (checkers : List ProjectChecker),
      claimedErrors resolve checkers filename =
        (checkers.filter (fun c => c.fileInProject filename)).flatMap
          (fun c => ProjectChecker.getErrorsForFile resolve c filename) := by
  intro checkers
  induction checkers with
  | nil => rfl
  | cons c cs ih =>
    cases h : c.fileInProject filename with
    | false => simp [claimedErrors, List.filter_cons, h] at ih ⊢; exact ih
    | true => simp [claimedErrors, List.filter_cons, h] at ih ⊢; exact ih

/-- C1: for every registry and every path F such that fileInProject F is
false for every registered checker, getErrorsForFiles [F] returns exactly one
diagnostic, with filePath = F, start and end absent, code 20000, and a
message containing F. -/
theorem getErrorsForFiles_unclaimed_synthesizes (resolve : String → String)
    (m : MultiProjectChecker) (F : String)
    (h : ∀ c ∈ m.projectCheckers, c.fileInProject F = false) :
    ∃ d : SimpleDiagnostic,
      MultiProjectChecker.getErrorsForFiles resolve m [F] = [d] ∧
      d.filePath = some F ∧ d.start = none ∧ d.end_ = none ∧ d.code = 20000 ∧
      ∃ pre post, d.message = pre ++ F ++ post := by
  refine ⟨fileNotFoundDiagnostic F, ?_, rfl, rfl, rfl, rfl,
    fileNotFoundHead, fileNotFoundTail, rfl⟩
  rw [getErrorsForFiles_singleton]
  have hany : m.projectCheckers.any (fun c => c.fileInProject F) = false := by
    rw [List.any_eq_false]
    intro c hc
    simp [h c hc]
  have hclaim : claimedErrors resolve m.projectCheckers F = [] := by
    rw [claimedErrors_eq_filter]
    have hfilter : m.projectCheckers.filter (fun c => c.fileInProject F) = [] := by
      rw [List.filter_eq_nil_iff]
      intro c hc
      simp [h c hc]
    rw [hfilter, List.flatMap_nil]
  simp [fileErrors, hany, hclaim]

/-- Witness for C1: against a registry whose only checker has no program, a
request for the sample path synthesizes the single code-20000 entry. -/
theorem getErrorsForFiles_unclaimed_synthesizes_witness :
    (∀ c ∈ registryNotReady.projectCheckers, c.fileInProject pathA = false) ∧
    ∃ d : SimpleDiagnostic,
      MultiProjectChecker.getErrorsForFiles id registryNotReady [pathA] = [d] ∧
      d.filePath = some pathA ∧ d.start = none ∧ d.end_ = none ∧ d.code = 20000 ∧
      ∃ pre post, d.message = pre ++ pathA ++ post := by
  have h : ∀ c ∈ registryNotReady.projectCheckers, c.fileInProject pathA = false := by
    intro c hc
    simp only [registryNotReady, List.mem_singleton] at hc
    subst hc
    rfl
  exact ⟨h, getErrorsForFiles_unclaimed_synthesizes id registryNotReady pathA h⟩

/-- C2: for every registry and every path F claimed by two or more registered
checkers, getErrorsForFiles [F] is the concatenation of getErrorsForFile F
over exactly the claiming checkers, in registration order, with no
synthesized code-20000 entry appended. -/
theorem getErrorsForFiles_multi_claim_concat (resolve : String → String)
    (m : MultiProjectChecker) (F : String)
    (h : 2 ≤ m.projectCheckers.countP (fun c => c.fileInProject F)) :
    MultiProjectChecker.getErrorsForFiles resolve m [F] =
      (m.projectCheckers.filter (fun c => c.fileInProject F)).flatMap
        (fun c => ProjectChecker.getErrorsForFile resolve c F) := by
  have hpos : 0 < m.projectCheckers.countP (fun c => c.fileInProject F) :=
    lt_of_lt_of_le (by norm_num) h
  obtain ⟨c, hc, hp⟩ := List.countP_pos_iff.mp hpos
  have hany : m.projectCheckers.any (fun c => c.fileInProject F) = true :=
    List.any_eq_true.mpr ⟨c, hc, hp⟩
  rw [getErrorsForFiles_singleton]
  simp [fileErrors, hany, claimedErrors_eq_filter]

/-- Witness for C2: both sample checkers claim the sample path, and the
aggregate result is the ordered concatenation of their per-file results. -/
theorem getErrorsForFiles_multi_claim_concat_witness :
    2 ≤ registryAB.projectCheckers.countP (fun c => c.fileInProject pathA) ∧
    MultiProjectChecker.getErrorsForFiles id registryAB [pathA] =
      (registryAB.projectCheckers.filter (fun c => c.fileInProject pathA)).flatMap
        (fun c => ProjectChecker.getErrorsForFile id c pathA) :=
  ⟨by decide, getErrorsForFiles_multi_claim_concat id registryAB pathA (by decide)⟩

/-- C9: getErrorsForFiles over a path list is the concatenation, over the
paths in order and with multiplicity, of the single-path queries; in
particular the empty query returns the empty list. -/
theorem getErrorsForFiles_per_path_decomposition (resolve : String → String)
    (m : MultiProjectChecker) (paths : List String) :
    MultiProjectChecker.getErrorsForFiles resolve m paths =
      paths.flatMap (fun p => MultiProjectChecker.getErrorsForFiles resolve m [p]) ∧
    MultiProjectChecker.getErrorsForFiles resolve m [] = [] := by
  constructor
  · simp [getErrorsForFiles_flatMap, getErrorsForFiles_singleton]
  · rfl

/-- C7: when the analysis state of a project is unavailable, getAllErrors
returns the empty list rather than failing, and fileInProject is false for
every path; in this embedding every checker operation is a total function,
so none of them can raise. -/
theorem projectChecker_not_ready_degrades (resolve : String → String)
    (c : ProjectChecker) (h : c.info.languageService.getProgram = none) :
    ProjectChecker.getAllErrors resolve c = [] ∧
    ∀ f, c.fileInProject f = false := by
  refine ⟨?_, fun f => ?_⟩ <;>
    simp [ProjectChecker.getAllErrors, ProjectChecker.fileInProject, h]

/-- Witness for C7: the sample checker with no program yields no errors and
claims no file. -/
theorem projectChecker_not_ready_degrades_witness :
    checkerNotReady.info.languageService.getProgram = none ∧
    ProjectChecker.getAllErrors id checkerNotReady = [] ∧
    ∀ f, checkerNotReady.fileInProject f = false :=
  ⟨rfl, projectChecker_not_ready_degrades id checkerNotReady rfl⟩

/-- C4: for every well-formed raw issue, the normalized record has end
present and at least start whenever start is present, and has start and end
both absent only when the engine provided neither a start nor a length. -/
theorem convertToSimpleDiagnostic_range_invariant (resolve : String → String)
    (c : ProjectChecker) (d : Diagnostic) (h : d.WellFormed) :
    (∀ s, (ProjectChecker.convertToSimpleDiagnostic resolve c d).start = some s →
      ∃ e, (ProjectChecker.convertToSimpleDiagnostic resolve c d).end_ = some e ∧ s ≤ e) ∧
    ((ProjectChecker.convertToSimpleDiagnostic resolve c d).start = none ∧
        (ProjectChecker.convertToSimpleDiagnostic resolve c d).end_ = none →
      d.start = none ∧ d.length = none) := by
  obtain ⟨h1, _h2⟩ := h
  cases hs : d.start with
  | none =>
    cases hl : d.length with
    | none =>
      constructor
      · intro s hstart
        simp [ProjectChecker.convertToSimpleDiagnostic, hs] at hstart
      · intro _
        exact ⟨rfl, rfl⟩
    | some l =>
      rw [hs, hl] at h1
      simp at h1
  | some s0 =>
    cases hl : d.length with
    | none =>
      rw [hs, hl] at h1
      simp at h1
    | some l =>
      constructor
      · intro s hstart
        simp [ProjectChecker.convertToSimpleDiagnostic, hs] at hstart
        refine ⟨s0 + l, ?_, ?_⟩
        · simp [ProjectChecker.convertToSimpleDiagnostic, hs, hl]
        · omega
      · intro hnone
        rw [show (ProjectChecker.convertToSimpleDiagnostic resolve c d).start =
            some s0 by simp [ProjectChecker.convertToSimpleDiagnostic, hs]] at hnone
        simp at hnone

/-- Witness for C4: the sample well-formed diagnostic with start 1 and
length 2 normalizes to a record whose end is present and at least 1. -/
theorem convertToSimpleDiagnostic_range_invariant_witness :
    diagSampleA.WellFormed ∧
    ∃ e, (ProjectChecker.convertToSimpleDiagnostic id checkerA diagSampleA).end_ = some e ∧
      1 ≤ e :=
  ⟨by decide,
    (convertToSimpleDiagnostic_range_invariant id checkerA diagSampleA (by decide)).1 1 rfl⟩

/-- C8: for a raw issue carrying a file, a start s and a length l, the
normalized record has filePath the resolved file path, start s and end
s + l; for a well-formed raw issue with no file, filePath, start and end are
all absent. -/
theorem convertToSimpleDiagnostic_location_mapping (resolve : String → String)
    (c : ProjectChecker) (d : Diagnostic) :
    (∀ f s l, d.file = some f → d.start = some s → d.length = some l →
      (ProjectChecker.convertToSimpleDiagnostic resolve c d).filePath = some (resolve f) ∧
      (ProjectChecker.convertToSimpleDiagnostic resolve c d).start = some s ∧
      (ProjectChecker.convertToSimpleDiagnostic resolve c d).end_ = some (s + l)) ∧
    (d.WellFormed → d.file = none →
      (ProjectChecker.convertToSimpleDiagnostic resolve c d).filePath = none ∧
      (ProjectChecker.convertToSimpleDiagnostic resolve c d).start = none ∧
      (ProjectChecker.convertToSimpleDiagnostic resolve c d).end_ = none) := by
  constructor
  · intro f s l hf hs hl
    refine ⟨?_, ?_, ?_⟩ <;> simp [ProjectChecker.convertToSimpleDiagnostic, hf, hs, hl]
  · intro hwf hf
    have hs : d.start = none := hwf.2 hf
    have hl : d.length = none := by
      have h1 := hwf.1
      rw [hs] at h1
      cases hlen : d.length with
      | none => rfl
      | some l =>
        rw [hlen] at h1
        simp at h1
    refine ⟨?_, ?_, ?_⟩ <;> simp [ProjectChecker.convertToSimpleDiagnostic, hf, hs, hl]

/-- Witness for C8: the sample diagnostic with file, start 1 and length 2
maps to filePath pathA, start 1, end 3; the sample fileless diagnostic maps
to an all-absent location. -/
theorem convertToSimpleDiagnostic_location_mapping_witness :
    diagNoFile.WellFormed ∧
    ((ProjectChecker.convertToSimpleDiagnostic id checkerA diagSampleA).filePath =
        some (id pathA) ∧
      (ProjectChecker.convertToSimpleDiagnostic id checkerA diagSampleA).start = some 1 ∧
      (ProjectChecker.convertToSimpleDiagnostic id checkerA diagSampleA).end_ = some (1 + 2)) ∧
    ((ProjectChecker.convertToSimpleDiagnostic id checkerA diagNoFile).filePath = none ∧
      (ProjectChecker.convertToSimpleDiagnostic id checkerA diagNoFile).start = none ∧
      (ProjectChecker.convertToSimpleDiagnostic id checkerA diagNoFile).end_ = none) :=
  ⟨by decide,
    (convertToSimpleDiagnostic_location_mapping id checkerA diagSampleA).1 pathA 1 2 rfl rfl rfl,
    (convertToSimpleDiagnostic_location_mapping id checkerA diagNoFile).2 (by decide) rfl⟩

/-- C3: invoking call while the pending-response slot is occupied fails
immediately with the programming-error message, leaving the client state —
in particular the trace of emitted request frames — untouched: the second
request is never queued or transmitted. -/
theorem call_while_pending_fails_without_send (st : ClientState) (payload : Request)
    (response : Response) (h : st.responseCallback = true) :
    TSStatusClient.call st payload response = (Except.error concurrentCallMessage, st) ∧
    (TSStatusClient.call st payload response).2.sentFrames = st.sentFrames := by
  have hmain : TSStatusClient.call st payload response =
      (Except.error concurrentCallMessage, st) := by
    simp [TSStatusClient.call, h]
  exact ⟨hmain, by rw [hmain]⟩

/-- Witness for C3: a second call on a client already awaiting a response
fails with the protocol-misuse message and emits nothing. -/
theorem call_while_pending_fails_without_send_witness :
    (ClientState.mk true []).responseCallback = true ∧
    TSStatusClient.call (ClientState.mk true []) Request.getAllErrors
        (Response.diagnostics []) =
      (Except.error concurrentCallMessage, ClientState.mk true []) :=
  ⟨rfl, (call_while_pending_fails_without_send (ClientState.mk true [])
    Request.getAllErrors (Response.diagnostics []) rfl).1⟩

/-- C5: for a call issued on an idle client, a string response payload makes
the call fail with a reason carrying that string — never a successful
(empty) diagnostic array — and any other payload is returned unchanged as
the successful diagnostic sequence. -/
theorem call_string_response_fails (st : ClientState) (payload : Request)
    (h : st.responseCallback = false) :
    (∀ s, (TSStatusClient.call st payload (Response.str s)).1 =
      Except.error (serviceErrorHead ++ s)) ∧
    (∀ s ds, (TSStatusClient.call st payload (Response.str s)).1 ≠ Except.ok ds) ∧
    (∀ ds, (TSStatusClient.call st payload (Response.diagnostics ds)).1 = Except.ok ds) := by
  refine ⟨fun s => ?_, fun s ds => ?_, fun ds => ?_⟩ <;>
    simp [TSStatusClient.call, TSStatusClient.interpretResponse, h]

/-- Witness for C5: the sample string response surfaces as a call failure
carrying the string. -/
theorem call_string_response_fails_witness :
    (ClientState.mk false []).responseCallback = false ∧
    (TSStatusClient.call (ClientState.mk false []) Request.getAllErrors
        (Response.str sampleError)).1 =
      Except.error (serviceErrorHead ++ sampleError) :=
  ⟨rfl, (call_string_response_fails (ClientState.mk false [])
    Request.getAllErrors rfl).1 sampleError⟩

/-- C6: on connection failure withClient runs onError on the connection
error and returns its outcome, never running onSuccess; on connection
success it runs onSuccess on the connected client and then disconnects —
also when onSuccess failed — before propagating the outcome of onSuccess.
The event trace is listed in execution order. -/
theorem withClient_scoped_disconnect {T : Type}
    (onSuccess : ClientState → Except String T) (onError : String → Except String T) :
    (∀ e, TSStatusClient.withClient (Except.error e) onSuccess onError =
        (onError e, [WithClientEvent.onErrorRun]) ∧
      WithClientEvent.onSuccessRun ∉ [WithClientEvent.onErrorRun]) ∧
    (∀ client, TSStatusClient.withClient (Except.ok client) onSuccess onError =
      (onSuccess client, [WithClientEvent.onSuccessRun, WithClientEvent.disconnectRun])) :=
  ⟨fun _ => ⟨rfl, by decide⟩, fun _ => rfl⟩

/-- C10: when a response frame is delivered to a client with an occupied
pending-response slot, the handler clears the slot before invoking the
awaiting continuation, which therefore observes an idle client; a new call
issued from within that continuation is permitted and sends its frame. -/
theorem respondHandler_clears_slot_before_continuation (st : ClientState)
    (data : Response) (h : st.responseCallback = true) :
    (∀ (α : Type) (k : ClientState → Response → α),
      TSStatusClient.respondHandler st k data =
        Except.ok (k { st with responseCallback := false } data)) ∧
    (∀ payload, TSStatusClient.respondHandler st
        (fun idle _ => TSStatusClient.beginCall idle payload) data =
      Except.ok (Except.ok
        { responseCallback := true, sentFrames := st.sentFrames ++ [payload] })) := by
  constructor
  · intro α k
    simp [TSStatusClient.respondHandler, h]
  · intro payload
    simp [TSStatusClient.respondHandler, TSStatusClient.beginCall, h]

/-- Witness for C10: delivering a response to an awaiting client and issuing
a fresh call from inside the continuation succeeds and emits the new
frame. -/
theorem respondHandler_clears_slot_before_continuation_witness :
    (ClientState.mk true []).responseCallback = true ∧
    TSStatusClient.respondHandler (ClientState.mk true [])
        (fun idle _ => TSStatusClient.beginCall idle Request.getAllErrors)
        (Response.diagnostics []) =
      Except.ok (Except.ok (ClientState.mk true [Request.getAllErrors])) := by
  have h := (respondHandler_clears_slot_before_continuation (ClientState.mk true [])
    (Response.diagnostics []) rfl).2 Request.getAllErrors
  exact ⟨rfl, by simpa using h⟩
